import Mathlib

/-!
Verification development for the React-with-Socket.io timer tutorial.

Client side: `api.js` (its full text appears in the repository README) and
`src/App.js` are embedded shallowly.  The socket calls a client function makes
are recorded as a list of `SockOp`s in program order, and the handler it
registers for the `timer` event is kept as a Lean function.

Server side: the tutorial's `server.js` is narrated in the README but its code
listings are not present in the repository, so the Connection Registry and
Timer Publisher are modelled from the specification (each such definition says
so in its doc comment).  Time is a virtual clock advancing in 1 ms steps.
-/

/-- One call made on the client socket object: either registering a handler
for a named inbound event (`socket.on`) or emitting a named event with an
integer payload (`socket.emit`). -/
inductive SockOp where
  | on (event : String)
  | emit (event : String) (payload : Int)
deriving DecidableEq, Repr

/-- The observable effect of calling a client api function: the socket calls
it performs, in program order, and the function the registered `timer`
handler computes from the received timestamp payload. -/
structure ClientCall (α : Type) where
  ops : List SockOp
  handler : String → α

/-- Embedding of `subscribeToTimer` from `api.js` (README, client section):
`function subscribeToTimer(cb) { socket.on('timer', timestamp => cb(null, timestamp)); socket.emit('subscribeToTimer', 1000); }`.
The node-style callback's error argument is `Option String`; JavaScript
`null` is `none`. -/
def subscribeToTimer {α : Type} (cb : Option String → String → α) : ClientCall α :=
  { ops := [SockOp.on "timer", SockOp.emit "subscribeToTimer" 1000],
    handler := fun timestamp => cb none timestamp }

/-- The React component state of `App.js`.  The source initialises
`this.state = { timestamp: 'no timestamp yet' }`; React's `setState` merges a
partial object into the full state, so the state is modelled as the
`timestamp` field together with an abstract remainder `rest` that a merge of
`{ timestamp }` leaves untouched. -/
structure AppState (ρ : Type) where
  timestamp : String
  rest : ρ

/-- The initial state set in the `App` constructor: `{ timestamp: 'no timestamp yet' }`. -/
def initialAppState {ρ : Type} (r : ρ) : AppState ρ :=
  { timestamp := "no timestamp yet", rest := r }

/-- The callback `App`'s constructor passes to `subscribeToTimer`:
`(err, timestamp) => this.setState({ timestamp })`, as a state transformer.
`setState({ timestamp })` merges only the `timestamp` field. -/
def appTimerCallback {ρ : Type} (err : Option String) (timestamp : String)
    (s : AppState ρ) : AppState ρ :=
  { s with timestamp := timestamp }

/-- The `subscribeToTimer` call made by `App`'s constructor:
`subscribeToTimer((err, timestamp) => this.setState({ timestamp }))` —
a single argument, the callback. -/
def appConstructorCall (ρ : Type) : ClientCall (AppState ρ → AppState ρ) :=
  subscribeToTimer (fun err timestamp => appTimerCallback err timestamp)

/-- The timer line of `App.render()`:
`This is the timer value: {this.state.timestamp}`. -/
def renderTimerLine {ρ : Type} (s : AppState ρ) : String :=
  "This is the timer value: " ++ s.timestamp

/-- Modelled from the spec: the repository's `server.js` (its code listings
are absent from the README).  One active Subscription: a connection id, the
positive interval (milliseconds) supplied by the peer, and the time elapsed
since the timer last fired (0 at start and after every fire). -/
structure Subscription where
  conn : Nat
  interval : Nat
  elapsed : Nat
deriving DecidableEq, Repr

/-- Modelled from the spec: the joint state of the Connection Registry and
Timer Publisher — the registered connections, the active subscriptions (at
most one per connection), the virtual clock in milliseconds, and the log of
`timer` events delivered so far as pairs (connection, timestamp). -/
structure SState where
  registry : List Nat
  subs : List Subscription
  now : Nat
  sent : List (Nat × Nat)
deriving DecidableEq, Repr

/-- Modelled from the spec: the server's state before any peer connects. -/
def initState : SState :=
  { registry := [], subs := [], now := 0, sent := [] }

/-- Modelled from the spec: `onConnect` — the transport layer admits a new
peer; the registry records the connection so its teardown can be observed. -/
def onConnect (c : Nat) (s : SState) : SState :=
  if c ∈ s.registry then s else { s with registry := c :: s.registry }

/-- Modelled from the spec: `unsubscribe(Connection)` — cancels the timer
for the given connection, if any; idempotent. -/
def unsubscribe (c : Nat) (s : SState) : SState :=
  { s with subs := s.subs.filter (fun sub => sub.conn != c) }

/-- Modelled from the spec: `onDisconnect(Connection)` — signals any owned
Subscription to cancel its timer, then removes the connection from the
registry; a no-op on an already-removed connection. -/
def onDisconnect (c : Nat) (s : SState) : SState :=
  { s with registry := s.registry.filter (fun d => d != c),
           subs := s.subs.filter (fun sub => sub.conn != c) }

/-- Modelled from the spec: `subscribe(Connection, interval)` — handles a
`subscribeToTimer` request whose payload is an interval in milliseconds
(`none` models a missing payload).  Validates `interval > 0` and that the
peer is connected; an invalid request is rejected silently.  A valid request
starts a fresh timer, replacing any prior timer of this connection. -/
def subscribe (c : Nat) (payload : Option Int) (s : SState) : SState :=
  match payload with
  | none => s
  | some i =>
      if 0 < i ∧ c ∈ s.registry then
        { s with subs := ⟨c, i.toNat, 0⟩ :: s.subs.filter (fun sub => sub.conn != c) }
      else s

/-- Modelled from the spec: how one millisecond of virtual time acts on a
subscription — its elapsed time grows by one, and a new period starts when
the interval is reached. -/
def stepSub (sub : Subscription) : Subscription :=
  if sub.interval ≤ sub.elapsed + 1 then { sub with elapsed := 0 }
  else { sub with elapsed := sub.elapsed + 1 }

/-- Modelled from the spec: the TimerEvent (addressee and timestamp) a
subscription delivers during one millisecond ending at clock value `now`,
if its interval is reached; `none` when the timer does not fire. -/
def fireAt (now : Nat) (sub : Subscription) : Option (Nat × Nat) :=
  if sub.interval ≤ sub.elapsed + 1 then some (sub.conn, now) else none

/-- Modelled from the spec: one millisecond of virtual time.  Every
subscription's elapsed time grows by one; a subscription whose elapsed time
reaches its interval fires, delivering a TimerEvent carrying the current
clock value to its one connection and starting the next period. -/
def tick (s : SState) : SState :=
  { s with
      now := s.now + 1,
      subs := s.subs.map stepSub,
      sent := s.sent ++ s.subs.filterMap (fireAt (s.now + 1)) }

/-- Advance the virtual clock by `n` milliseconds. -/
def advance : Nat → SState → SState
  | 0, s => s
  | n + 1, s => advance n (tick s)

/-- Modelled from the spec: the events the single logical event loop
dispatches — connection lifecycle callbacks from the transport layer,
subscribe requests from peers, and clock ticks. -/
inductive Ev where
  | connect (c : Nat)
  | disconnect (c : Nat)
  | subscribe (c : Nat) (payload : Option Int)
  | unsubscribe (c : Nat)
  | tick
deriving DecidableEq, Repr

/-- Dispatch one event. -/
def applyEv : Ev → SState → SState
  | Ev.connect c, s => onConnect c s
  | Ev.disconnect c, s => onDisconnect c s
  | Ev.subscribe c p, s => subscribe c p s
  | Ev.unsubscribe c, s => unsubscribe c s
  | Ev.tick, s => tick s

/-- Run a sequence of events from a state. -/
def run (evs : List Ev) (s : SState) : SState :=
  evs.foldl (fun t e => applyEv e t) s

/-- The states the server can reach from startup. -/
inductive Reach : SState → Prop where
  | init : Reach initState
  | step {s : SState} (e : Ev) : Reach s → Reach (applyEv e s)

/-- The timestamps delivered to connection `c` so far, oldest first. -/
def sentTo (c : Nat) (s : SState) : List Nat :=
  (s.sent.filter (fun p => p.1 == c)).map Prod.snd

/-- Connection `c` is fully torn down in state `t`: it is out of the
registry and owns no subscription. -/
def Gone (c : Nat) (t : SState) : Prop :=
  c ∉ t.registry ∧ t.subs.filter (fun sub => sub.conn == c) = []

/-- Admitting a connection touches only the registry. -/
theorem onConnect_subs (c : Nat) (s : SState) : (onConnect c s).subs = s.subs := by
  unfold onConnect
  split <;> rfl

/-- Admitting a connection leaves the delivery log alone. -/
theorem onConnect_sent (c : Nat) (s : SState) : (onConnect c s).sent = s.sent := by
  unfold onConnect
  split <;> rfl

/-- Admitting a connection leaves the clock alone. -/
theorem onConnect_now (c : Nat) (s : SState) : (onConnect c s).now = s.now := by
  unfold onConnect
  split <;> rfl

/-- Advancing one millisecond keeps a subscription's connection. -/
theorem stepSub_conn (sub : Subscription) : (stepSub sub).conn = sub.conn := by
  unfold stepSub
  split <;> rfl

/-- Filtering for a connection after filtering it away yields nothing. -/
theorem filter_conn_filter_ne (c : Nat) (l : List Subscription) :
    (l.filter (fun sub => sub.conn != c)).filter (fun sub => sub.conn == c) = [] := by
  induction l with
  | nil => rfl
  | cons a l ih =>
      rcases eq_or_ne a.conn c with h | h
      · simp [List.filter_cons, h, ih]
      · simp [List.filter_cons, h, ih]

/-- A connection's entries survive the per-millisecond update pointwise. -/
theorem filter_conn_map_step (c : Nat) (l : List Subscription) :
    (l.map stepSub).filter (fun sub => sub.conn == c)
      = (l.filter (fun sub => sub.conn == c)).map stepSub := by
  induction l with
  | nil => rfl
  | cons a l ih =>
      rcases eq_or_ne a.conn c with h | h
      · simp [List.filter_cons, stepSub_conn, h, ih]
      · simp [List.filter_cons, stepSub_conn, h, ih]

/-- The events fired for a connection come exactly from its own entries. -/
theorem filter_conn_filterMap_fire (c now : Nat) (l : List Subscription) :
    (l.filterMap (fireAt now)).filter (fun p => p.1 == c)
      = (l.filter (fun sub => sub.conn == c)).filterMap (fireAt now) := by
  induction l with
  | nil => rfl
  | cons a l ih =>
      rcases eq_or_ne a.conn c with h | h
      · by_cases hf : a.interval ≤ a.elapsed + 1
        · simp [List.filterMap_cons, List.filter_cons, fireAt, hf, h, ih]
        · simp [List.filterMap_cons, List.filter_cons, fireAt, hf, h, ih]
      · by_cases hf : a.interval ≤ a.elapsed + 1
        · simp [List.filterMap_cons, List.filter_cons, fireAt, hf, h, ih]
        · simp [List.filterMap_cons, List.filter_cons, fireAt, hf, h, ih]

/-- Filtering preserves having no entry for a connection. -/
theorem filter_conn_of_filter_nil {c : Nat} {l : List Subscription}
    (h : l.filter (fun sub => sub.conn == c) = []) (q : Subscription → Bool) :
    (l.filter q).filter (fun sub => sub.conn == c) = [] := by
  have hsub : List.Sublist ((l.filter q).filter (fun sub => sub.conn == c))
      (l.filter (fun sub => sub.conn == c)) :=
    List.Sublist.filter _ (List.filter_sublist l)
  rw [h] at hsub
  exact List.sublist_nil.mp hsub

/-- A subscribe request never touches the delivery log. -/
theorem subscribe_sent (c : Nat) (p : Option Int) (s : SState) :
    (subscribe c p s).sent = s.sent := by
  cases p with
  | none => rfl
  | some i =>
      simp only [subscribe]
      split <;> rfl

/-- A subscribe request never touches the clock. -/
theorem subscribe_now (c : Nat) (p : Option Int) (s : SState) :
    (subscribe c p s).now = s.now := by
  cases p with
  | none => rfl
  | some i =>
      simp only [subscribe]
      split <;> rfl

/-- A subscribe request never touches the registry. -/
theorem subscribe_registry (c : Nat) (p : Option Int) (s : SState) :
    (subscribe c p s).registry = s.registry := by
  cases p with
  | none => rfl
  | some i =>
      simp only [subscribe]
      split <;> rfl

/-- After a valid subscribe request, the requesting connection owns exactly
one subscription: a fresh timer at the requested interval. -/
theorem subscribe_pos_filter {c : Nat} {i : Int} {s : SState}
    (hi : 0 < i) (hc : c ∈ s.registry) :
    (subscribe c (some i) s).subs.filter (fun sub => sub.conn == c)
      = [⟨c, i.toNat, 0⟩] := by
  simp only [subscribe]
  rw [if_pos ⟨hi, hc⟩]
  simp only [List.filter_cons]
  simp only [show ((⟨c, i.toNat, 0⟩ : Subscription).conn == c) = true by simp]
  rw [if_pos trivial, filter_conn_filter_ne]

/-- What a tick delivers to one connection is produced by its own entries. -/
theorem tick_sentTo (c : Nat) (s : SState) :
    sentTo c (tick s)
      = sentTo c s ++ ((s.subs.filter (fun sub => sub.conn == c)).filterMap
          (fireAt (s.now + 1))).map Prod.snd := by
  unfold sentTo tick
  simp only [List.filter_append, List.map_append, filter_conn_filterMap_fire]

/-- The effect of one tick on a connection that owns one subscription. -/
theorem tick_filter_single {c i e : Nat} {s : SState}
    (hf : s.subs.filter (fun sub => sub.conn == c) = [⟨c, i, e⟩]) :
    (tick s).subs.filter (fun sub => sub.conn == c)
      = [⟨c, i, if i ≤ e + 1 then 0 else e + 1⟩] := by
  show (s.subs.map stepSub).filter _ = _
  rw [filter_conn_map_step, hf]
  by_cases h : i ≤ e + 1
  · simp [stepSub, h]
  · simp [stepSub, h]

/-- What one tick delivers to a connection that owns one subscription. -/
theorem tick_sentTo_single {c i e : Nat} {s : SState}
    (hf : s.subs.filter (fun sub => sub.conn == c) = [⟨c, i, e⟩]) :
    sentTo c (tick s) = sentTo c s ++ (if i ≤ e + 1 then [s.now + 1] else []) := by
  rw [tick_sentTo, hf]
  by_cases h : i ≤ e + 1
  · simp [fireAt, h]
  · simp [fireAt, h]

/-- A tick moves the clock forward one millisecond. -/
theorem tick_now (s : SState) : (tick s).now = s.now + 1 := rfl

/-- Advancing the clock adds the elapsed time. -/
theorem advance_now (n : Nat) : ∀ s : SState, (advance n s).now = s.now + n := by
  induction n with
  | zero => intro s; rfl
  | succ n ih =>
      intro s
      show (advance n (tick s)).now = s.now + (n + 1)
      rw [ih, tick_now]
      omega

/-- The timer events a connection owning one fresh-or-running subscription
receives while the clock advances `n` ms: one per full period completed,
stamped with the clock value at the period's end. -/
theorem advance_sentTo (n : Nat) : ∀ (s : SState) (c i e : Nat), 0 < i → e < i →
    s.subs.filter (fun sub => sub.conn == c) = [⟨c, i, e⟩] →
    sentTo c (advance n s)
      = sentTo c s
        ++ (List.range ((e + n) / i)).map (fun j => s.now + ((j + 1) * i - e)) := by
  induction n with
  | zero =>
      intro s c i e hi he hf
      rw [Nat.add_zero, Nat.div_eq_of_lt he, List.range_zero]
      simp [advance]
  | succ n ih =>
      intro s c i e hi he hf
      show sentTo c (advance n (tick s)) = _
      by_cases h : i ≤ e + 1
      · have he1 : e + 1 = i := by omega
        have hf' := tick_filter_single hf
        rw [if_pos h] at hf'
        rw [ih (tick s) c i 0 hi hi hf', tick_sentTo_single hf, if_pos h, tick_now,
          List.append_assoc]
        congr 1
        have hcount : (e + (n + 1)) / i = (0 + n) / i + 1 := by
          rw [Nat.zero_add, show e + (n + 1) = n + i by omega, Nat.add_div_right _ hi]
        rw [hcount, List.range_succ_eq_map, List.map_cons, List.map_map,
          List.singleton_append]
        have hhead : s.now + ((0 + 1) * i - e) = s.now + 1 := by
          have : (0 + 1) * i = i := by ring
          omega
        rw [hhead]
        congr 1
        apply List.map_congr_left
        intro j hj
        have hx : (j + 1 + 1) * i = (j + 1) * i + i := by ring
        have hy : i ≤ (j + 1) * i := Nat.le_mul_of_pos_left i (Nat.succ_pos j)
        simp only [Function.comp, Nat.succ_eq_add_one]
        omega
      · have hf' := tick_filter_single hf
        rw [if_neg h] at hf'
        have he' : e + 1 < i := by omega
        rw [ih (tick s) c i (e + 1) hi he' hf', tick_sentTo_single hf, if_neg h,
          tick_now, List.append_nil]
        congr 1
        rw [show e + 1 + n = e + (n + 1) by ring]
        apply List.map_congr_left
        intro j hj
        have hy : i ≤ (j + 1) * i := Nat.le_mul_of_pos_left i (Nat.succ_pos j)
        omega

/-- The timestamps of a pure cadence list are strictly increasing. -/
theorem chain_lt_cadence (i e : Nat) (hi : 0 < i) (he : e < i) (m now : Nat) :
    List.Chain' (· < ·) ((List.range m).map (fun j => now + ((j + 1) * i - e))) := by
  apply List.Pairwise.chain'
  apply List.Pairwise.map _ _ (List.pairwise_lt_range m)
  intro a b hab
  have hx : (a + 1) * i < (b + 1) * i :=
    (Nat.mul_lt_mul_right hi).mpr (by omega)
  have hy : i ≤ (a + 1) * i := Nat.le_mul_of_pos_left i (Nat.succ_pos a)
  omega

/-- Filtering a list twice with one predicate equals filtering once. -/
theorem filter_idem {α : Type} (p : α → Bool) (l : List α) :
    (l.filter p).filter p = l.filter p := by
  induction l with
  | nil => rfl
  | cons a l ih =>
      by_cases h : p a
      · simp [List.filter_cons, h, ih]
      · simp [List.filter_cons, h, ih]

/-- Claim C5: a subscribe request whose interval payload is zero, negative
or missing is rejected silently: the state is completely unchanged — no
timer is started, no event stream begins, nothing is sent to the peer, the
handler returns normally, and the connection stays Idle. -/
theorem invalid_subscribe_rejected (s : SState) (c : Nat) (payload : Option Int)
    (h : payload = none ∨ ∃ i, payload = some i ∧ i ≤ 0) :
    subscribe c payload s = s := by
  rcases h with h | ⟨i, rfl, hle⟩
  · rw [h]
    rfl
  · simp only [subscribe]
    rw [if_neg]
    rintro ⟨hi, -⟩
    omega

/-- Witness for C5: zero, negative and missing intervals are all rejected
on a connected peer, leaving the state untouched. -/
theorem invalid_subscribe_rejected_witness :
    subscribe 7 (some 0) (onConnect 7 initState) = onConnect 7 initState
    ∧ subscribe 7 (some (-5)) (onConnect 7 initState) = onConnect 7 initState
    ∧ subscribe 7 none (onConnect 7 initState) = onConnect 7 initState :=
  ⟨invalid_subscribe_rejected _ 7 _ (Or.inr ⟨0, rfl, by omega⟩),
   invalid_subscribe_rejected _ 7 _ (Or.inr ⟨-5, rfl, by omega⟩),
   invalid_subscribe_rejected _ 7 _ (Or.inl rfl)⟩

/-- Claim C6: `onDisconnect` and `unsubscribe` are idempotent — running
either twice for a connection equals running it once — and on a connection
that is already removed (respectively owns no subscription) each is a no-op
returning the state, hence cannot crash. -/
theorem disconnect_unsubscribe_idempotent :
    (∀ (s : SState) (c : Nat), onDisconnect c (onDisconnect c s) = onDisconnect c s)
    ∧ (∀ (s : SState) (c : Nat), unsubscribe c (unsubscribe c s) = unsubscribe c s)
    ∧ (∀ (s : SState) (c : Nat), c ∉ s.registry →
        s.subs.filter (fun sub => sub.conn == c) = [] → onDisconnect c s = s)
    ∧ (∀ (s : SState) (c : Nat),
        s.subs.filter (fun sub => sub.conn == c) = [] → unsubscribe c s = s) := by
  refine ⟨?_, ?_, ?_, ?_⟩
  · intro s c
    simp [onDisconnect, filter_idem]
  · intro s c
    simp [unsubscribe, filter_idem]
  · intro s c hreg hsub
    have h1 : s.registry.filter (fun d => d != c) = s.registry :=
      List.filter_eq_self.mpr (fun d hd => by
        simp only [bne_iff_ne]
        rintro rfl
        exact hreg hd)
    have h2 : s.subs.filter (fun sub => sub.conn != c) = s.subs :=
      List.filter_eq_self.mpr (fun sub hmem => by
        simp only [bne_iff_ne]
        intro hconn
        have hin : sub ∈ s.subs.filter (fun sub => sub.conn == c) :=
          List.mem_filter.mpr ⟨hmem, by simp [hconn]⟩
        rw [hsub] at hin
        exact absurd hin (List.not_mem_nil _))
    simp [onDisconnect, h1, h2]
  · intro s c hsub
    have h2 : s.subs.filter (fun sub => sub.conn != c) = s.subs :=
      List.filter_eq_self.mpr (fun sub hmem => by
        simp only [bne_iff_ne]
        intro hconn
        have hin : sub ∈ s.subs.filter (fun sub => sub.conn == c) :=
          List.mem_filter.mpr ⟨hmem, by simp [hconn]⟩
        rw [hsub] at hin
        exact absurd hin (List.not_mem_nil _))
    simp [unsubscribe, h2]

/-- Witness for C6: disconnecting a never-connected peer is a no-op. -/
theorem disconnect_unsubscribe_idempotent_witness :
    onDisconnect 5 (onConnect 0 initState) = onConnect 0 initState :=
  disconnect_unsubscribe_idempotent.2.2.1 (onConnect 0 initState) 5 (by decide) (by decide)

/-- Claim C2: subscribing with a valid interval `i > 0` and letting `k * i`
milliseconds elapse delivers exactly `k` further timer events to that
connection (hence at least `k`), with strictly increasing timestamps; and in
the concrete scenario connect → subscribe(1000 ms) → advance 3500 ms, exactly
the three events stamped 1000, 2000, 3000 are delivered. -/
theorem timer_cadence (s : SState) (c : Nat) (i : Int) (k : Nat)
    (hc : c ∈ s.registry) (hi : 0 < i) :
    (sentTo c (advance (k * i.toNat) (subscribe c (some i) s))).length
        = (sentTo c s).length + k
    ∧ List.Chain' (· < ·)
        (List.drop (sentTo c s).length
          (sentTo c (advance (k * i.toNat) (subscribe c (some i) s))))
    ∧ sentTo 0 (advance 3500 (subscribe 0 (some 1000) (onConnect 0 initState)))
        = [1000, 2000, 3000] := by
  have hiN : 0 < i.toNat := by omega
  have hfil := subscribe_pos_filter hi hc
  have hsto : sentTo c (subscribe c (some i) s) = sentTo c s := by
    unfold sentTo
    rw [subscribe_sent]
  have hmain := advance_sentTo (k * i.toNat) (subscribe c (some i) s) c i.toNat 0
    hiN hiN hfil
  rw [hsto, subscribe_now] at hmain
  refine ⟨?_, ?_, ?_⟩
  · rw [hmain, List.length_append, List.length_map, List.length_range, Nat.zero_add,
      Nat.mul_div_cancel k hiN]
  · rw [hmain, List.drop_left]
    exact chain_lt_cadence i.toNat 0 hiN hiN _ _
  · have h0 : (subscribe 0 (some 1000) (onConnect 0 initState)).subs.filter
        (fun sub => sub.conn == 0) = [⟨0, 1000, 0⟩] := by decide
    rw [advance_sentTo 3500 _ 0 1000 0 (by omega) (by omega) h0]
    decide

/-- Witness for C2: a fresh connection subscribing at 5 ms receives exactly
2 strictly increasing events within 10 ms, and the 1000 ms scenario delivers
the events stamped 1000, 2000 and 3000. -/
theorem timer_cadence_witness :
    (sentTo 0 (advance (2 * (5 : Int).toNat)
        (subscribe 0 (some 5) (onConnect 0 initState)))).length
        = (sentTo 0 (onConnect 0 initState)).length + 2
    ∧ List.Chain' (· < ·)
        (List.drop (sentTo 0 (onConnect 0 initState)).length
          (sentTo 0 (advance (2 * (5 : Int).toNat)
            (subscribe 0 (some 5) (onConnect 0 initState)))))
    ∧ sentTo 0 (advance 3500 (subscribe 0 (some 1000) (onConnect 0 initState)))
        = [1000, 2000, 3000] :=
  timer_cadence (onConnect 0 initState) 0 5 2 (by decide) (by decide)

/-- Claim C7: a TimerEvent fired by a subscription is addressed to exactly
the connection owning that subscription, and for two simultaneously
connected clients with their own fresh subscriptions the deliveries to each
over any span follow exactly that client's own cadence — the other client's
interval never influences them and no event lands on the wrong connection. -/
theorem two_connections_isolated_cadence (s : SState) (c₁ c₂ i₁ i₂ n : Nat)
    (hne : c₁ ≠ c₂) (hi₁ : 0 < i₁) (hi₂ : 0 < i₂)
    (h₁ : s.subs.filter (fun sub => sub.conn == c₁) = [⟨c₁, i₁, 0⟩])
    (h₂ : s.subs.filter (fun sub => sub.conn == c₂) = [⟨c₂, i₂, 0⟩]) :
    (∀ (now : Nat) (sub : Subscription) (p : Nat × Nat),
        fireAt now sub = some p → p.1 = sub.conn)
    ∧ sentTo c₁ (advance n s)
        = sentTo c₁ s ++ (List.range (n / i₁)).map (fun j => s.now + (j + 1) * i₁)
    ∧ sentTo c₂ (advance n s)
        = sentTo c₂ s ++ (List.range (n / i₂)).map (fun j => s.now + (j + 1) * i₂) := by
  refine ⟨?_, ?_, ?_⟩
  · intro now sub p hp
    unfold fireAt at hp
    by_cases h : sub.interval ≤ sub.elapsed + 1
    · rw [if_pos h] at hp
      cases hp
      rfl
    · rw [if_neg h] at hp
      cases hp
  · rw [advance_sentTo n s c₁ i₁ 0 hi₁ hi₁ h₁]
    simp only [Nat.zero_add, Nat.sub_zero]
  · rw [advance_sentTo n s c₂ i₂ 0 hi₂ hi₂ h₂]
    simp only [Nat.zero_add, Nat.sub_zero]

/-- Witness for C7: connections 0 (every 2 ms) and 1 (every 3 ms) each
receive exactly their own cadence over 6 ms. -/
theorem two_connections_isolated_cadence_witness :
    (∀ (now : Nat) (sub : Subscription) (p : Nat × Nat),
        fireAt now sub = some p → p.1 = sub.conn)
    ∧ sentTo 0 (advance 6 (subscribe 1 (some 3)
          (onConnect 1 (subscribe 0 (some 2) (onConnect 0 initState)))))
        = sentTo 0 (subscribe 1 (some 3)
            (onConnect 1 (subscribe 0 (some 2) (onConnect 0 initState))))
          ++ (List.range (6 / 2)).map (fun j =>
              (subscribe 1 (some 3)
                (onConnect 1 (subscribe 0 (some 2) (onConnect 0 initState)))).now
                + (j + 1) * 2)
    ∧ sentTo 1 (advance 6 (subscribe 1 (some 3)
          (onConnect 1 (subscribe 0 (some 2) (onConnect 0 initState)))))
        = sentTo 1 (subscribe 1 (some 3)
            (onConnect 1 (subscribe 0 (some 2) (onConnect 0 initState))))
          ++ (List.range (6 / 3)).map (fun j =>
              (subscribe 1 (some 3)
                (onConnect 1 (subscribe 0 (some 2) (onConnect 0 initState)))).now
                + (j + 1) * 3) :=
  two_connections_isolated_cadence _ 0 1 2 3 6 (by decide) (by decide) (by decide)
    (by decide) (by decide)

/-- Claim C3 (part): the connections owning active subscriptions are
pairwise distinct in every reachable state — at most one running timer per
connection — and a second subscribe request with interval `i₂` after a first
with `i₁` leaves exactly one fresh `i₂` subscription for that connection,
after which only `i₂`-cadence events are delivered to it. -/
theorem single_subscription_per_connection :
    (∀ s : SState, Reach s → (s.subs.map Subscription.conn).Nodup)
    ∧ (∀ (s : SState) (c : Nat) (i₁ i₂ : Int) (n : Nat),
        c ∈ s.registry → 0 < i₁ → 0 < i₂ →
        (subscribe c (some i₂) (subscribe c (some i₁) s)).subs.filter
            (fun sub => sub.conn == c) = [⟨c, i₂.toNat, 0⟩]
        ∧ sentTo c (advance n (subscribe c (some i₂) (subscribe c (some i₁) s)))
            = sentTo c s
              ++ (List.range (n / i₂.toNat)).map (fun j => s.now + (j + 1) * i₂.toNat)) := by
  constructor
  · intro s hr
    induction hr with
    | init => simp [initState]
    | step e hr ih =>
        rename_i t
        cases e with
        | connect c =>
            show ((onConnect c t).subs.map _).Nodup
            rw [onConnect_subs]
            exact ih
        | disconnect c =>
            exact List.Nodup.sublist
              (List.Sublist.map _ (List.filter_sublist t.subs)) ih
        | subscribe c p =>
            cases p with
            | none => exact ih
            | some i =>
                show ((subscribe c (some i) t).subs.map _).Nodup
                simp only [subscribe]
                split
                · simp only [List.map_cons]
                  rw [List.nodup_cons]
                  constructor
                  · intro hmem
                    obtain ⟨sub, hsub, hconn⟩ := List.mem_map.mp hmem
                    have hf := (List.mem_filter.mp hsub).2
                    rw [bne_iff_ne] at hf
                    exact hf hconn
                  · exact List.Nodup.sublist
                      (List.Sublist.map _ (List.filter_sublist t.subs)) ih
                · exact ih
        | unsubscribe c =>
            exact List.Nodup.sublist
              (List.Sublist.map _ (List.filter_sublist t.subs)) ih
        | tick =>
            show ((t.subs.map stepSub).map _).Nodup
            rw [List.map_map]
            have hmc : t.subs.map (Subscription.conn ∘ stepSub)
                = t.subs.map Subscription.conn :=
              List.map_congr_left (fun sub _ => stepSub_conn sub)
            rw [hmc]
            exact ih
  · intro s c i₁ i₂ n hc h1 h2
    have hc' : c ∈ (subscribe c (some i₁) s).registry := by
      rw [subscribe_registry]
      exact hc
    have hfil := subscribe_pos_filter h2 hc'
    refine ⟨hfil, ?_⟩
    have hiN : 0 < i₂.toNat := by omega
    rw [advance_sentTo n _ c i₂.toNat 0 hiN hiN hfil]
    have hs : sentTo c (subscribe c (some i₂) (subscribe c (some i₁) s))
        = sentTo c s := by
      unfold sentTo
      rw [subscribe_sent, subscribe_sent]
    rw [hs, subscribe_now, subscribe_now]
    simp only [Nat.zero_add, Nat.sub_zero]

/-- Witness for C3: resubscribing connection 0 from 4 ms to 2 ms leaves one
2 ms subscription and yields pure 2 ms cadence over the next 5 ms. -/
theorem single_subscription_per_connection_witness :
    (subscribe 0 (some 2) (subscribe 0 (some 4) (onConnect 0 initState))).subs.filter
        (fun sub => sub.conn == 0) = [⟨0, (2 : Int).toNat, 0⟩]
    ∧ sentTo 0 (advance 5 (subscribe 0 (some 2)
          (subscribe 0 (some 4) (onConnect 0 initState))))
        = sentTo 0 (onConnect 0 initState)
          ++ (List.range (5 / (2 : Int).toNat)).map (fun j =>
              (onConnect 0 initState).now + (j + 1) * (2 : Int).toNat) :=
  single_subscription_per_connection.2 (onConnect 0 initState) 0 4 2 5
    (by decide) (by decide) (by decide)

/-- Disconnecting fully tears a connection down. -/
theorem gone_onDisconnect (c : Nat) (s : SState) : Gone c (onDisconnect c s) := by
  constructor
  · intro hmem
    have h := (List.mem_filter.mp hmem).2
    simp at h
  · exact filter_conn_filter_ne c s.subs

/-- Every event other than a reconnect of `c` keeps `c` torn down and
delivers nothing to it. -/
theorem gone_applyEv {c : Nat} {t : SState} (e : Ev) (he : e ≠ Ev.connect c)
    (hg : Gone c t) :
    Gone c (applyEv e t) ∧ sentTo c (applyEv e t) = sentTo c t := by
  obtain ⟨hreg, hsub⟩ := hg
  cases e with
  | connect d =>
      have hdc : d ≠ c := fun h => he (by rw [h])
      refine ⟨⟨?_, ?_⟩, ?_⟩
      · show c ∉ (onConnect d t).registry
        unfold onConnect
        split
        · exact hreg
        · intro hmem
          rcases List.mem_cons.mp hmem with h | h
          · exact hdc h.symm
          · exact hreg h
      · show (onConnect d t).subs.filter _ = []
        rw [onConnect_subs]
        exact hsub
      · show sentTo c (onConnect d t) = sentTo c t
        unfold sentTo
        rw [onConnect_sent]
  | disconnect d =>
      exact ⟨⟨fun h => hreg (List.mem_of_mem_filter h),
        filter_conn_of_filter_nil hsub _⟩, rfl⟩
  | subscribe d p =>
      cases p with
      | none => exact ⟨⟨hreg, hsub⟩, rfl⟩
      | some i =>
          have hsent : sentTo c (subscribe d (some i) t) = sentTo c t := by
            unfold sentTo
            rw [subscribe_sent]
          refine ⟨?_, hsent⟩
          show Gone c (subscribe d (some i) t)
          simp only [subscribe]
          split
          · rename_i hcond
            by_cases hdc : d = c
            · subst hdc
              exact absurd hcond.2 hreg
            · refine ⟨hreg, ?_⟩
              simp only [List.filter_cons]
              rw [if_neg (by simp [hdc]), filter_conn_of_filter_nil hsub]
          · exact ⟨hreg, hsub⟩
  | unsubscribe d =>
      exact ⟨⟨hreg, filter_conn_of_filter_nil hsub _⟩, rfl⟩
  | tick =>
      refine ⟨⟨hreg, ?_⟩, ?_⟩
      · show (t.subs.map stepSub).filter _ = []
        rw [filter_conn_map_step, hsub]
        rfl
      · show sentTo c (tick t) = sentTo c t
        rw [tick_sentTo, hsub]
        simp

/-- Once a connection is torn down, no execution avoiding a reconnect of it
ever delivers anything more to it. -/
theorem run_gone (c : Nat) : ∀ (evs : List Ev) (t : SState),
    Ev.connect c ∉ evs → Gone c t → sentTo c (run evs t) = sentTo c t := by
  intro evs
  induction evs with
  | nil =>
      intro t _ _
      rfl
  | cons e evs ih =>
      intro t hne hg
      have he : e ≠ Ev.connect c := fun h => hne (by rw [h]; exact List.mem_cons_self _ _)
      have h2 := gone_applyEv e he hg
      show sentTo c (run evs (applyEv e t)) = sentTo c t
      rw [ih (applyEv e t) (fun h => hne (List.mem_cons_of_mem _ h)) h2.1, h2.2]

/-- Claim C4: after `onDisconnect` has run for a connection, no later
execution of the event loop (ticks of any timers, other peers connecting,
subscribing, unsubscribing or disconnecting — anything except that same
connection handle reconnecting, which cannot happen since a handle is
destroyed on disconnect) delivers another timer event to it: its delivery
log stays exactly as it was when the disconnect callback returned. -/
theorem no_delivery_after_disconnect (s : SState) (c : Nat) (evs : List Ev)
    (hnc : Ev.connect c ∉ evs) :
    sentTo c (run evs (onDisconnect c s)) = sentTo c (onDisconnect c s) :=
  run_gone c evs (onDisconnect c s) hnc (gone_onDisconnect c s)

/-- Witness for C4: a peer on a 2 ms timer that already received one event
disconnects; later ticks and another peer's 1 ms subscription deliver
nothing more to it. -/
theorem no_delivery_after_disconnect_witness :
    sentTo 0 (run [Ev.tick, Ev.tick, Ev.connect 1, Ev.subscribe 1 (some 1), Ev.tick]
        (onDisconnect 0 (advance 2 (subscribe 0 (some 2) (onConnect 0 initState)))))
      = sentTo 0 (onDisconnect 0 (advance 2 (subscribe 0 (some 2) (onConnect 0 initState)))) :=
  no_delivery_after_disconnect
    (advance 2 (subscribe 0 (some 2) (onConnect 0 initState))) 0
    [Ev.tick, Ev.tick, Ev.connect 1, Ev.subscribe 1 (some 1), Ev.tick] (by decide)

/-- C1: the evidence theorem.  `subscribeToTimer` accepts no interval
parameter — its only argument is the callback — and every `subscribeToTimer`
emission it performs (in particular the one in `App`'s constructor) carries
the hard-coded payload `1000`, never a caller-supplied interval. -/
theorem subscribeToTimer_payload_hardcoded :
    ∀ (ρ : Type) (p : Int),
      SockOp.emit "subscribeToTimer" p ∈ (appConstructorCall ρ).ops ↔ p = 1000 := by
  intro ρ p
  constructor
  · intro h
    simp [appConstructorCall, subscribeToTimer] at h
    exact h
  · intro h
    subst h
    simp [appConstructorCall, subscribeToTimer]

/-- C8: in every invocation of `subscribeToTimer`, the handler for the
`timer` event is registered at an op-position strictly before the position of
the `subscribeToTimer` emission, and no emission at all precedes the
registration: there is no window in which the server could already be
emitting `timer` events the client is not listening for. -/
theorem handler_registered_before_emit :
    ∀ (α : Type) (cb : Option String → String → α),
      ∃ i j, i < j
        ∧ (subscribeToTimer cb).ops.get? i = some (SockOp.on "timer")
        ∧ (subscribeToTimer cb).ops.get? j = some (SockOp.emit "subscribeToTimer" 1000)
        ∧ ∀ k e p, k < i → (subscribeToTimer cb).ops.get? k ≠ some (SockOp.emit e p) := by
  intro α cb
  refine ⟨0, 1, by omega, rfl, rfl, ?_⟩
  intro k e p hk
  omega

/-- C9: the error argument of the node-style callback is always `null`: the
handler `subscribeToTimer` registers invokes the caller's callback as
`cb(null, timestamp)` on every received payload, and the `App` component's
callback ignores its `err` parameter entirely. -/
theorem callback_error_always_null :
    (∀ (α : Type) (cb : Option String → String → α) (ts : String),
        (subscribeToTimer cb).handler ts = cb none ts)
    ∧ (∀ (ρ : Type) (s : AppState ρ) (e₁ e₂ : Option String) (ts : String),
        appTimerCallback e₁ ts s = appTimerCallback e₂ ts s) := by
  constructor
  · intro α cb ts
    rfl
  · intro ρ s e₁ e₂ ts
    rfl

/-- C10: the `App` state starts with `timestamp = "no timestamp yet"`, the
callback updates exactly the `timestamp` field (the rest of the state is
unchanged by the merge), and rendering always shows the current
`state.timestamp` after the text `This is the timer value: `. -/
theorem app_state_frame :
    (∀ (ρ : Type) (r : ρ), (initialAppState r).timestamp = "no timestamp yet")
    ∧ (∀ (ρ : Type) (s : AppState ρ) (err : Option String) (ts : String),
        (appTimerCallback err ts s).timestamp = ts
        ∧ (appTimerCallback err ts s).rest = s.rest)
    ∧ (∀ (ρ : Type) (s : AppState ρ),
        renderTimerLine s = "This is the timer value: " ++ s.timestamp) := by
  refine ⟨fun ρ r => rfl, fun ρ s err ts => ⟨rfl, rfl⟩, fun ρ s => rfl⟩
